import Mathlib

/-!
Verification of the signal-container core of dsp4rust against its
specification. The container `SignalBase` (a 1-D array of `f64`) is
embedded as `List ℝ`; the operations under scrutiny — constant and
periodic padding, first differencing, sliding windows, signed indexing
and the `Iterator` implementation — are translated function by function
from `src/inner/base.rs`. Recoverable failures are `Except`/dedicated
error constructors; an abrupt abort (a Rust panic, including the
`unreachable!` in `pad_wrap`) is a distinguished outcome.
-/

namespace Dsp4Rust

/-- Value of `isize::MAX as usize` on the 64-bit target: `2 ^ 63 - 1`. -/
def isizeMax : ℕ := 2 ^ 63 - 1

/-- Side on which padding is applied (`PadSide` in `base.rs`). -/
inductive PadSide where
  | Left
  | Right
  | Both

/-- Errors of basic operations (`BaseOperationError` in `inner/mod.rs`). -/
inductive BaseOperationError where
  | DiffShortLength
deriving DecidableEq

/-- Padding errors (`PadError` in `inner/mod.rs`). -/
inductive PadError where
  | ConcatenationError : String → PadError
  | ResultOutOfBounds
  | Other : String → PadError
deriving DecidableEq

/-- Possible outcomes of `pad_wrap`: a result, a recoverable `PadError`,
or an abrupt abort (the `unreachable!` panic branch). -/
inductive PadOutcome where
  | ok : List ℝ → PadOutcome
  | error : PadError → PadOutcome
  | panicked

/-- Embedding of ndarray's `concatenate(Axis(0), views)` on 1-D views:
the library returns an error (`ErrorKind::Unsupported`) when the list of
input views is empty, and otherwise concatenates them in order. -/
def concatenateList (views : List (List ℝ)) : Except String (List ℝ) :=
  match views with
  | [] => Except.error "unsupported: no arrays"
  | vs => Except.ok vs.flatten

/-- Embedding of `SignalBase::concat`: `concatenate![Axis(0), self.base, another.base]`. -/
def concat (a b : List ℝ) : List ℝ := a ++ b

/-- Embedding of `SignalBase::pad_cons` (`base.rs` lines 461-491).
`from_elem` builds `pad_width` copies of the constant; each arm checks
`self.len() + pad_width > isize::MAX as usize` and otherwise concatenates
exactly as the source does (`Left` is `self.concat(&cons_signal)`,
`Right` is `cons_signal.concat(self)`,
`Both` is `cons_signal.concat(self).concat(&cons_signal)`). -/
def padCons (l : List ℝ) (padSide : PadSide) (constants : ℝ) (padWidth : ℕ) :
    Except PadError (List ℝ) :=
  let consSignal : List ℝ := List.replicate padWidth constants
  match padSide with
  | PadSide.Left =>
      if l.length + padWidth > isizeMax then Except.error PadError.ResultOutOfBounds
      else Except.ok (concat l consSignal)
  | PadSide.Right =>
      if l.length + padWidth > isizeMax then Except.error PadError.ResultOutOfBounds
      else Except.ok (concat consSignal l)
  | PadSide.Both =>
      if l.length + padWidth > isizeMax then Except.error PadError.ResultOutOfBounds
      else Except.ok (concat (concat consSignal l) consSignal)

/-- Embedding of `SignalBase::pad_wrap` (`base.rs` lines 493-571).
The bounds check is `len + 2 * pad_width > isize::MAX as usize` for every
side; an empty source is a `ConcatenationError`. `repeated` is
`concatenate` applied to `pad_width / len` copies of the content, and an
error from `concatenate` (which happens exactly when that count is zero)
lands in the `unreachable!` branch, i.e. a panic. The left partial block
is `iter().skip(len - remain).rev()` (the last `remain` elements,
reversed), the right partial block is `iter().rev().skip(len - remain).rev()`
(the first `remain` elements in order). -/
def padWrap (l : List ℝ) (padSide : PadSide) (padWidth : ℕ) : PadOutcome :=
  let len := l.length
  if len + 2 * padWidth > isizeMax then PadOutcome.error PadError.ResultOutOfBounds
  else if len = 0 then PadOutcome.error (PadError.ConcatenationError "Empty input")
  else
    let repeatCount := padWidth / len
    let remain := padWidth % len
    let views : List (List ℝ) := List.replicate repeatCount l
    match concatenateList views with
    | Except.error _ => PadOutcome.panicked
    | Except.ok repeated =>
        match padSide with
        | PadSide.Left =>
            PadOutcome.ok (((l.drop (len - remain)).reverse ++ repeated) ++ l)
        | PadSide.Right =>
            PadOutcome.ok ((l ++ repeated) ++ (l.reverse.drop (len - remain)).reverse)
        | PadSide.Both =>
            PadOutcome.ok ((((l.drop (len - remain)).reverse ++ repeated) ++ l ++ repeated)
              ++ (l.reverse.drop (len - remain)).reverse)

/-- Embedding of the iterator produced by ndarray's `windows(size)` on a
1-D array: starting from the full array, each step emits the first `size`
elements as a window (when at least `size` remain) and advances by one
position; it stops as soon as fewer than `size` elements remain. -/
def slide : List ℝ → ℕ → List (List ℝ)
  | [], _ => []
  | a :: t, size =>
      if size ≤ t.length + 1 then (a :: t).take size :: slide t size else []

/-- Embedding of `SignalBase::windows` (`base.rs` lines 44-49): delegates
to ndarray's `windows`, which panics (here `none`) when the window size is
zero. -/
def windows (l : List ℝ) (size : ℕ) : Option (List (List ℝ)) :=
  if size = 0 then none else some (slide l size)

/-- Embedding of `SignalBase::diff` (`base.rs` lines 434-442): a length
below 2 is a `DiffShortLength` error, otherwise each length-2 window `w`
is mapped to `w[1] - w[0]`. -/
def diff (l : List ℝ) : Except BaseOperationError (List ℝ) :=
  if l.length < 2 then Except.error BaseOperationError.DiffShortLength
  else Except.ok ((slide l 2).map (fun w => w.getD 1 0 - w.getD 0 0))

/-- Embedding of `SignalBase::is_idx_valid` (`base.rs` lines 225-228):
`idx >= -(len as isize) && idx < len as isize`. -/
def is_idx_valid (l : List ℝ) (idx : ℤ) : Bool :=
  decide (-(l.length : ℤ) ≤ idx) && decide (idx < (l.length : ℤ))

/-- Embedding of `Index<isize> for SignalBase` (`base.rs` lines 52-65):
an invalid index panics (`none`); a valid one resolves to physical
position `len + index` when negative, `index` otherwise. -/
def signalIndex (l : List ℝ) (index : ℤ) : Option ℝ :=
  if !(is_idx_valid l index) then none
  else
    let idx : ℕ := if index < 0 then ((l.length : ℤ) + index).toNat else index.toNat
    l[idx]?

/-- Embedding of `Iterator::next for SignalBase` (`base.rs` lines 36-41):
the body `self.base.iter().next().copied()` reads the first element of a
fresh iterator and never mutates `self`, so the call returns the head and
leaves the state unchanged. -/
def signalNext (s : List ℝ) : Option ℝ × List ℝ := (s.head?, s)

/-- State of the container after `k` successive calls to `next()`. -/
def nextStates (s : List ℝ) : ℕ → List ℝ
  | 0 => s
  | k + 1 => (signalNext (nextStates s k)).2

/-! ### Helper lemmas about the window iterator -/

/-- A window iterator over fewer elements than the window size yields nothing. -/
theorem slide_eq_nil {l : List ℝ} {size : ℕ} (h : l.length < size) : slide l size = [] := by
  cases l with
  | nil => rfl
  | cons a t =>
      simp only [slide]
      rw [if_neg]
      simp only [List.length_cons] at h
      omega

/-- Number of windows produced by the window iterator. -/
theorem slide_length {size : ℕ} (hs : 1 ≤ size) :
    ∀ l : List ℝ, size ≤ l.length → (slide l size).length = l.length - size + 1 := by
  intro l
  induction l with
  | nil => intro h; simp at h; omega
  | cons a t ih =>
      intro h
      simp only [List.length_cons] at h
      simp only [slide]
      rw [if_pos h]
      by_cases h2 : size ≤ t.length
      · simp only [List.length_cons, ih h2]
        omega
      · have ht : t.length < size := by omega
        simp only [slide_eq_nil ht, List.length_cons, List.length_nil]
        omega

/-- The `k`-th window produced by the window iterator is the contiguous
block of `size` elements starting at position `k`. -/
theorem slide_getElem {size : ℕ} (hs : 1 ≤ size) :
    ∀ (l : List ℝ) (k : ℕ), k + size ≤ l.length →
      (slide l size)[k]? = some ((l.drop k).take size) := by
  intro l
  induction l with
  | nil => intro k h; simp at h; omega
  | cons a t ih =>
      intro k h
      simp only [List.length_cons] at h
      simp only [slide]
      rw [if_pos (by omega)]
      cases k with
      | zero => simp
      | succ k =>
          rw [List.getElem?_cons_succ, ih k (by omega), List.drop_succ_cons]

/-- Every window produced by the window iterator has length `size`. -/
theorem slide_mem_length {size : ℕ} :
    ∀ (l w : List ℝ), w ∈ slide l size → w.length = size := by
  intro l
  induction l with
  | nil => intro w hw; simp [slide] at hw
  | cons a t ih =>
      intro w hw
      simp only [slide] at hw
      by_cases hc : size ≤ t.length + 1
      · rw [if_pos hc] at hw
        rcases List.mem_cons.mp hw with h | h
        · subst h
          simp only [List.length_take, List.length_cons]
          omega
        · exact ih w h
      · rw [if_neg hc] at hw
        simp at hw

/-- After any number of `next()` calls the container state is unchanged. -/
theorem nextStates_eq (s : List ℝ) : ∀ k, nextStates s k = s := by
  intro k
  induction k with
  | zero => rfl
  | succ k ih => simp only [nextStates, signalNext, ih]

/-! ### Claim theorems -/

/-- C1: the claim states `pad_cons(Left, c, w)` prepends the `w` constants
and `pad_cons(Right, c, w)` appends them. Evaluating the code on the
container `[1, 2]` with constant `9` and width `1` shows the opposite:
the `Left` arm appends the constant block on the right (`[1, 2, 9]`,
whereas the claim demands `[9, 1, 2]`), and the `Right` arm prepends it
(`[9, 1, 2]` instead of `[1, 2, 9]`). -/
theorem c1_pad_cons_sides_swapped_eval :
    padCons [(1 : ℝ), 2] PadSide.Left 9 1 = Except.ok [1, 2, 9] ∧
    padCons [(1 : ℝ), 2] PadSide.Right 9 1 = Except.ok [9, 1, 2] ∧
    ([(1 : ℝ), 2, 9] ≠ [9, 1, 2]) := by
  refine ⟨rfl, rfl, ?_⟩
  simp only [ne_eq, List.cons.injEq, and_false, not_false_eq_true, false_and]
  norm_num

/-- C2: the claim states `pad_wrap(Left, w)` prepends the `w` samples at
indices `-w, …, -1` of the periodic extension in forward order; for the
container `[1, 2, 3]` and `w = 5` that block is `[2, 3, 1, 2, 3]`. The
code instead reverses the partial boundary tile and produces
`[3, 2, 1, 2, 3]` before the original content. -/
theorem c2_pad_wrap_left_partial_tile_reversed_eval :
    padWrap [(1 : ℝ), 2, 3] PadSide.Left 5 = PadOutcome.ok [3, 2, 1, 2, 3, 1, 2, 3] ∧
    ([(3 : ℝ), 2, 1, 2, 3, 1, 2, 3] ≠ [2, 3, 1, 2, 3, 1, 2, 3]) := by
  refine ⟨rfl, ?_⟩
  simp only [ne_eq, List.cons.injEq, not_and]
  norm_num

/-- C4: the claim states `pad_wrap(Right, w)` succeeds on every non-empty
container and appends `source[j mod n]` at each offset `j`. For the
container `[1, 2]` and `w = 1` the quotient `pad_width / len` is zero, so
the code hands an empty list of views to the array library's concatenate,
which reports an error, and control reaches the `unreachable!` branch:
the call aborts instead of returning `[1, 2, 1]`. -/
theorem c4_pad_wrap_right_small_width_panics_eval :
    padWrap [(1 : ℝ), 2] PadSide.Right 1 = PadOutcome.panicked := rfl

/-- C10: the claim states `pad_wrap(side, 0)` is the identity on every
non-empty container. With `pad_width = 0` the quotient `pad_width / len`
is zero, the array library's concatenate receives an empty list of views
and reports an error, and the `unreachable!` branch aborts the call on
every side. -/
theorem c10_pad_wrap_zero_width_panics_eval :
    padWrap [(1 : ℝ), 2, 3] PadSide.Left 0 = PadOutcome.panicked ∧
    padWrap [(1 : ℝ), 2, 3] PadSide.Right 0 = PadOutcome.panicked ∧
    padWrap [(1 : ℝ), 2, 3] PadSide.Both 0 = PadOutcome.panicked :=
  ⟨rfl, rfl, rfl⟩

/-- C9: for a window size larger than the container length (and at least
1, so the size-zero panic of the library iterator is not hit),
`windows(size)` yields the empty sequence of windows; it neither errors
nor aborts. -/
theorem c9_windows_oversize_empty (l : List ℝ) (size : ℕ)
    (hs : 1 ≤ size) (hlt : l.length < size) : windows l size = some [] := by
  unfold windows
  rw [if_neg (by omega)]
  rw [slide_eq_nil hlt]

/-- Witness for C9 at the container `[1, 2]` and window size `5`. -/
theorem c9_windows_oversize_empty_witness :
    1 ≤ 5 ∧ ([(1 : ℝ), 2]).length < 5 ∧ windows [(1 : ℝ), 2] 5 = some [] :=
  ⟨by norm_num, by norm_num,
    c9_windows_oversize_empty [(1 : ℝ), 2] 5 (by norm_num) (by norm_num)⟩

/-- C8: the container's `Iterator::next` never advances: it returns the
element at position 0 (`none` exactly on the empty container) and leaves
the state unchanged, so on a non-empty container every successive call
returns the same first element and iteration never yields `none`. -/
theorem c8_next_never_advances (s : List ℝ) :
    (signalNext s).1 = s[0]? ∧ (signalNext s).2 = s ∧
    ((signalNext s).1 = none ↔ s = []) ∧
    (s ≠ [] → ∀ k, (signalNext (nextStates s k)).1 = s[0]? ∧
      (signalNext (nextStates s k)).1 ≠ none) := by
  refine ⟨?_, rfl, ?_, ?_⟩
  · simp [signalNext, List.head?_eq_getElem?]
  · cases s <;> simp [signalNext]
  · intro hne k
    rw [nextStates_eq s k]
    constructor
    · simp [signalNext, List.head?_eq_getElem?]
    · cases s with
      | nil => exact absurd rfl hne
      | cons a t => simp [signalNext]

/-- Witness for C8 at the container `[7]`, two calls deep. -/
theorem c8_next_never_advances_witness :
    ([(7 : ℝ)] ≠ []) ∧ (signalNext (nextStates [(7 : ℝ)] 2)).1 = some 7 ∧
    (signalNext (nextStates [(7 : ℝ)] 2)).1 ≠ none := by
  have h := (c8_next_never_advances [(7 : ℝ)]).2.2.2 (by simp) 2
  exact ⟨by simp, h.1, h.2⟩

/-- C3 counterexample: the claim states `pad_wrap(Left, w)` on a
non-empty length-`n` container fails with the capacity error only when
`n + w` exceeds `isize::MAX`. For the container `[5]` and `w = 2 ^ 62`
we have `1 + 2 ^ 62 ≤ isize::MAX`, yet the code returns the
`ResultOutOfBounds` error because its check is `n + 2 * w`. -/
theorem c3_error_conditions_counterexample :
    1 + 2 ^ 62 ≤ isizeMax ∧
    padWrap [(5 : ℝ)] PadSide.Left (2 ^ 62) = PadOutcome.error PadError.ResultOutOfBounds := by
  constructor
  · unfold isizeMax; norm_num
  · rfl

/-- C3 amended: `pad_cons` fails with `ResultOutOfBounds` exactly when
`n + w > isize::MAX`, on every side including `Both` (the code checks the
single-side growth even there), and `pad_wrap` on a non-empty container
returns `ResultOutOfBounds` exactly when `n + 2 * w > isize::MAX`, on
every side including `Left` and `Right`. -/
theorem c3_error_conditions_amended (l : List ℝ) (side : PadSide) (c : ℝ) (w : ℕ) :
    (padCons l side c w = Except.error PadError.ResultOutOfBounds ↔
      l.length + w > isizeMax) ∧
    (l ≠ [] →
      (padWrap l side w = PadOutcome.error PadError.ResultOutOfBounds ↔
        l.length + 2 * w > isizeMax)) := by
  constructor
  · cases side <;> (simp only [padCons]; split_ifs with h <;> simp [h])
  · intro hne
    unfold padWrap
    dsimp only
    split_ifs with h1 h2
    · simp [h1]
    · exact absurd (List.length_eq_zero.mp h2) hne
    · rcases hrc : w / l.length with _ | k
      · simp [hrc, concatenateList, h1]
      · cases side <;> simp [concatenateList, List.replicate_succ, h1]

/-- Witness for C3 amended at the container `[5]`, side `Both`,
constant `0` and width `2 ^ 62`. -/
theorem c3_error_conditions_amended_witness :
    (padCons [(5 : ℝ)] PadSide.Both 0 (2 ^ 62) = Except.error PadError.ResultOutOfBounds ↔
      ([(5 : ℝ)]).length + 2 ^ 62 > isizeMax) ∧
    (padWrap [(5 : ℝ)] PadSide.Both (2 ^ 62) = PadOutcome.error PadError.ResultOutOfBounds ↔
      ([(5 : ℝ)]).length + 2 * 2 ^ 62 > isizeMax) := by
  have h := c3_error_conditions_amended [(5 : ℝ)] PadSide.Both 0 (2 ^ 62)
  exact ⟨h.1, h.2 (by simp)⟩

/-- C5: `diff()` fails with the short-length error exactly when the
container has fewer than 2 elements; on a container of length `n ≥ 2` it
returns a container of length `n - 1` whose `i`-th element is
`source[i+1] - source[i]`. -/
theorem c5_diff_forward_difference (l : List ℝ) :
    (diff l = Except.error BaseOperationError.DiffShortLength ↔ l.length < 2) ∧
    (2 ≤ l.length → ∃ r, diff l = Except.ok r ∧ r.length = l.length - 1 ∧
      ∀ i, i < l.length - 1 → r[i]? = some (l.getD (i + 1) 0 - l.getD i 0)) := by
  constructor
  · unfold diff
    split_ifs with h <;> simp [h]
  · intro h2
    refine ⟨(slide l 2).map (fun w => w.getD 1 0 - w.getD 0 0), ?_, ?_, ?_⟩
    · unfold diff
      rw [if_neg (by omega)]
    · rw [List.length_map, slide_length (by norm_num) l (by omega)]
      omega
    · intro i hi
      rw [List.getElem?_map, slide_getElem (by norm_num) l i (by omega),
        Option.map_some']
      have e1 : ((l.drop i).take 2).getD 1 0 = l.getD (i + 1) 0 := by
        rw [List.getD_eq_getElem?_getD, List.getD_eq_getElem?_getD,
          List.getElem?_take, if_pos (by norm_num), List.getElem?_drop]
      have e0 : ((l.drop i).take 2).getD 0 0 = l.getD i 0 := by
        rw [List.getD_eq_getElem?_getD, List.getD_eq_getElem?_getD,
          List.getElem?_take, if_pos (by norm_num), List.getElem?_drop,
          Nat.add_zero]
      rw [e1, e0]

/-- Witness for C5 at the container `[1, 3, 6, 10]` (first differences
`[2, 3, 4]`). -/
theorem c5_diff_forward_difference_witness :
    2 ≤ ([(1 : ℝ), 3, 6, 10]).length ∧
    (∃ r, diff [(1 : ℝ), 3, 6, 10] = Except.ok r ∧ r.length = 3 ∧
      ∀ i, i < 3 → r[i]? =
        some (([(1 : ℝ), 3, 6, 10]).getD (i + 1) 0 - ([(1 : ℝ), 3, 6, 10]).getD i 0)) :=
  ⟨by norm_num, (c5_diff_forward_difference [(1 : ℝ), 3, 6, 10]).2 (by norm_num)⟩

/-- C7: for `1 ≤ size ≤ n`, `windows(size)` yields exactly
`n - size + 1` windows, each of length `size`, and the `k`-th window is
the block of `size` consecutive elements starting at position `k`. -/
theorem c7_windows_count_and_content (l : List ℝ) (size : ℕ)
    (hs : 1 ≤ size) (hle : size ≤ l.length) :
    ∃ ws, windows l size = some ws ∧ ws.length = l.length - size + 1 ∧
      (∀ w ∈ ws, w.length = size) ∧
      (∀ k, k < l.length - size + 1 → ws[k]? = some ((l.drop k).take size)) := by
  refine ⟨slide l size, ?_, slide_length hs l hle,
    fun w hw => slide_mem_length l w hw, ?_⟩
  · unfold windows
    rw [if_neg (by omega)]
  · intro k hk
    exact slide_getElem hs l k (by omega)

/-- Witness for C7 at the container `[1, 2, 3, 4]` and window size `2`
(three windows). -/
theorem c7_windows_count_and_content_witness :
    1 ≤ 2 ∧ 2 ≤ ([(1 : ℝ), 2, 3, 4]).length ∧
    (∃ ws, windows [(1 : ℝ), 2, 3, 4] 2 = some ws ∧ ws.length = 3 ∧
      (∀ w ∈ ws, w.length = 2) ∧
      (∀ k, k < 3 → ws[k]? = some ((([(1 : ℝ), 2, 3, 4]).drop k).take 2))) :=
  ⟨by norm_num, by norm_num,
    c7_windows_count_and_content [(1 : ℝ), 2, 3, 4] 2 (by norm_num) (by norm_num)⟩

/-- C6: for `-n ≤ i < n` indexing does not hit the panic branch and
resolves to physical position `i` (when `i ≥ 0`) or `n + i` (when
`i < 0`); consequently `container[i] = container[i - n]` for
`0 ≤ i < n`; any index outside `[-n, n)` panics (modelled as `none`). -/
theorem c6_signed_index_resolution (l : List ℝ) (i : ℤ) :
    (0 ≤ i → i < (l.length : ℤ) → signalIndex l i = some (l.getD i.toNat 0)) ∧
    (-(l.length : ℤ) ≤ i → i < 0 →
      signalIndex l i = some (l.getD ((l.length : ℤ) + i).toNat 0)) ∧
    ((i < -(l.length : ℤ) ∨ (l.length : ℤ) ≤ i) → signalIndex l i = none) ∧
    (0 ≤ i → i < (l.length : ℤ) →
      signalIndex l i = signalIndex l (i - (l.length : ℤ))) := by
  have h1 : ∀ j : ℤ, 0 ≤ j → j < (l.length : ℤ) →
      signalIndex l j = some (l.getD j.toNat 0) := by
    intro j hj0 hjlt
    have hge : -(l.length : ℤ) ≤ j := by omega
    have hnneg : ¬j < 0 := by omega
    have ht : j.toNat < l.length := by omega
    simp only [signalIndex, is_idx_valid, decide_eq_true hge, decide_eq_true hjlt,
      Bool.and_self, Bool.not_true, Bool.false_eq_true, if_false, hnneg]
    rw [List.getElem?_eq_getElem ht, List.getD_eq_getElem l 0 ht]
  have h2 : ∀ j : ℤ, -(l.length : ℤ) ≤ j → j < 0 →
      signalIndex l j = some (l.getD ((l.length : ℤ) + j).toNat 0) := by
    intro j hjge hjneg
    have hjlt : j < (l.length : ℤ) := by omega
    have ht : ((l.length : ℤ) + j).toNat < l.length := by omega
    simp only [signalIndex, is_idx_valid, decide_eq_true hjge, decide_eq_true hjlt,
      Bool.and_self, Bool.not_true, Bool.false_eq_true, if_false, hjneg, if_true]
    rw [List.getElem?_eq_getElem ht, List.getD_eq_getElem l 0 ht]
  refine ⟨h1 i, h2 i, ?_, ?_⟩
  · intro h
    have hv : is_idx_valid l i = false := by
      simp only [is_idx_valid, Bool.and_eq_false_iff, decide_eq_false_iff_not]
      omega
    simp [signalIndex, hv]
  · intro h0 hlt
    rw [h1 i h0 hlt, h2 (i - (l.length : ℤ)) (by omega) (by omega)]
    congr 2
    omega

/-- Witness for C6 at the container `[1, 2, 3]` with indices `1`, `-1`
and `5`. -/
theorem c6_signed_index_resolution_witness :
    signalIndex [(1 : ℝ), 2, 3] 1 = some 2 ∧
    signalIndex [(1 : ℝ), 2, 3] (-1) = some 3 ∧
    signalIndex [(1 : ℝ), 2, 3] 5 = none ∧
    signalIndex [(1 : ℝ), 2, 3] 1 = signalIndex [(1 : ℝ), 2, 3] (1 - 3) := by
  refine ⟨?_, ?_, ?_, ?_⟩
  · have h := (c6_signed_index_resolution [(1 : ℝ), 2, 3] 1).1
      (by norm_num) (by norm_num)
    simpa using h
  · have h := (c6_signed_index_resolution [(1 : ℝ), 2, 3] (-1)).2.1
      (by norm_num) (by norm_num)
    simpa using h
  · exact (c6_signed_index_resolution [(1 : ℝ), 2, 3] 5).2.2.1 (by norm_num)
  · have h := (c6_signed_index_resolution [(1 : ℝ), 2, 3] 1).2.2.2
      (by norm_num) (by norm_num)
    simpa using h

end Dsp4Rust
